import Mathlib

/-!
Verification of the DevLinker backend connection ledger (the user-facing
router: feed selector, swipe-left / swipe-right reconciler) against its
natural-language specification.

The JavaScript source (routes/user.js) is shallowly embedded here:
- the MongoDB `ConnectionRequest` collection is a `List ConnectionRequest`
  in insertion order; `findOne` is `List.find?`, `updateMany` is `List.map`
  guarded by the update filter, `save` appends;
- the `User` collection is a `List User`; ids are abstracted as `Nat`;
- Express query-string values are `QVal` (absent, a string, or an array of
  strings, mirroring what `req.query` can hold);
- a missing / falsy `toUserId` in a request body is `Option.none`;
- `$regex` with option `i` on `location` is modelled as case-insensitive
  substring containment (the source never passes regex metacharacters
  through the spec'd contract).
-/

namespace DevLinker

/-- The `status` enum of the `ConnectionRequest` schema. -/
inductive CStatus where
  | interested
  | ignored
  | accepted
deriving DecidableEq, Repr

/-- A document of the `ConnectionRequest` collection: a directional
interest/disinterest signal between an ordered pair of users. -/
structure ConnectionRequest where
  fromUserId : Nat
  toUserId : Nat
  status : CStatus
deriving DecidableEq, Repr

/-- The profile fields of a `User` document that the feed filter reads. -/
structure User where
  uid : Nat
  skills : List String
  experience : String
  role : String
  availability : String
  location : String
  isProfileComplete : Bool
deriving DecidableEq, Repr

/-- A query-string value as Express delivers it: absent, a string, or an
array of strings. -/
inductive QVal where
  | undef
  | str (s : String)
  | arr (l : List String)
deriving DecidableEq, Repr

/-- JavaScript `String(value)` on a query value (`String(undefined)` is
`"undefined"`, `String(array)` joins with commas). -/
def jsString : QVal → String
  | QVal.undef => "undefined"
  | QVal.str s => s
  | QVal.arr l => String.intercalate "," l

/-- JavaScript `Number.parseInt(s, 10)`: skip leading whitespace, an
optional sign, then the longest digit prefix; `none` models `NaN`. -/
def jsParseInt (s : String) : Option Int :=
  let cs := s.toList.dropWhile (fun c => c = ' ' ∨ c = '\t' ∨ c = '\n' ∨ c = '\r')
  let signAndRest : Int × List Char :=
    match cs with
    | '-' :: r => (-1, r)
    | '+' :: r => (1, r)
    | r => (1, r)
  let digits := signAndRest.2.takeWhile Char.isDigit
  if digits.isEmpty then none
  else some (signAndRest.1 *
    (Int.ofNat (digits.foldl (fun acc c => acc * 10 + (c.toNat - 48)) 0)))

/-- `parsePositiveInt` from routes/user.js: `NaN` or a non-positive parse
falls back to `fallback`. -/
def parsePositiveInt (value : QVal) (fallback : Nat) : Nat :=
  match jsParseInt (jsString value) with
  | none => fallback
  | some parsed => if parsed ≤ 0 then fallback else parsed.toNat

/-- `normalizeString` from routes/user.js: `undefined`/`null` become `""`,
anything else is stringified and trimmed. -/
def normalizeString : QVal → String
  | QVal.undef => ""
  | QVal.str s => s.trim
  | QVal.arr l => (String.intercalate "," l).trim

/-- `normalizeSkills` from routes/user.js: arrays are trimmed elementwise,
a comma-separated string is split, empties are dropped. -/
def normalizeSkills : QVal → List String
  | QVal.undef => []
  | QVal.arr l => (l.map (fun v => v.trim)).filter (fun v => !v.isEmpty)
  | QVal.str s =>
    let str := s.trim
    if str.isEmpty then []
    else if str.contains ',' then
      ((str.splitOn ",").map (fun v => v.trim)).filter (fun v => !v.isEmpty)
    else [str]

/-- Case-insensitive substring test, modelling `$regex: location,
$options: "i"` on a plain (metacharacter-free) pattern. -/
def containsCI (s pat : String) : Bool :=
  decide (List.IsInfix pat.toLower.toList s.toLower.toList)

/-- `User.findById`. -/
def findById (users : List User) (uid : Nat) : Option User :=
  users.find? (fun u => u.uid == uid)

/-- `ConnectionRequest.findOne({fromUserId, toUserId})`. -/
def findOnePair (ledger : List ConnectionRequest) (f t : Nat) :
    Option ConnectionRequest :=
  ledger.find? (fun r => r.fromUserId == f && r.toUserId == t)

/-- `ConnectionRequest.findOne({fromUserId, toUserId, status})`. -/
def findOnePairStatus (ledger : List ConnectionRequest) (f t : Nat)
    (s : CStatus) : Option ConnectionRequest :=
  ledger.find? (fun r => r.fromUserId == f && r.toUserId == t && r.status == s)

/-- Modelled from the spec: the mongoose `ConnectionRequest` model
(src/models/connectionRequest.js) is not part of the provided source; per
§3 "fromUserId ≠ toUserId (no self-requests)" its save-time validation
rejects a self-request, and otherwise `save` persists the document. A
rejection is the thrown error the route handler catches as a 400. -/
def saveConnectionRequest (ledger : List ConnectionRequest)
    (r : ConnectionRequest) : Except String (List ConnectionRequest) :=
  if r.fromUserId == r.toUserId then
    Except.error "Cannot send a connection request to yourself"
  else Except.ok (ledger ++ [r])

/-- The JSON response and post-state of a swipe handler. -/
structure SwipeResult where
  httpStatus : Nat
  message : String
  data : Option ConnectionRequest
  matched : Option Bool
  ledger : List ConnectionRequest
deriving DecidableEq, Repr

/-- The `POST /swipe-left` handler: validate the target, return an
existing record idempotently, otherwise create an `ignored` record. -/
def swipeLeft (users : List User) (ledger : List ConnectionRequest)
    (loggedInUser : Nat) (toUserId : Option Nat) : SwipeResult :=
  match toUserId with
  | none =>
    { httpStatus := 400, message := "toUserId is required", data := none,
      matched := none, ledger := ledger }
  | some t =>
    match findById users t with
    | none =>
      { httpStatus := 404, message := "User not found", data := none,
        matched := none, ledger := ledger }
    | some _ =>
      match findOnePair ledger loggedInUser t with
      | some existing =>
        { httpStatus := 200, message := "Already swiped", data := some existing,
          matched := none, ledger := ledger }
      | none =>
        match saveConnectionRequest ledger
            { fromUserId := loggedInUser, toUserId := t,
              status := CStatus.ignored } with
        | Except.error msg =>
          { httpStatus := 400, message := msg, data := none,
            matched := none, ledger := ledger }
        | Except.ok saved =>
          { httpStatus := 200, message := "Swiped left",
            data := some { fromUserId := loggedInUser, toUserId := t,
                           status := CStatus.ignored },
            matched := none, ledger := saved }

/-- The `updateMany` filter of the match case: either directional record
of the unordered pair `{a, t}`. -/
def pairFilter (a t : Nat) (r : ConnectionRequest) : Bool :=
  (r.fromUserId == a && r.toUserId == t) || (r.fromUserId == t && r.toUserId == a)

/-- `updateMany({$or: [a→t, t→a]}, {$set: {status: "accepted"}})`. -/
def acceptPair (ledger : List ConnectionRequest) (a t : Nat) :
    List ConnectionRequest :=
  ledger.map (fun r => if pairFilter a t r then { r with status := CStatus.accepted } else r)

/-- The `POST /swipe-right` handler: validate the target; on a repeat
swipe return the existing record with the current reciprocal-derived match
status; otherwise create an `interested` record and, if the reciprocal
record is `interested`, flip both directional records to `accepted`. -/
def swipeRight (users : List User) (ledger : List ConnectionRequest)
    (loggedInUser : Nat) (toUserId : Option Nat) : SwipeResult :=
  match toUserId with
  | none =>
    { httpStatus := 400, message := "toUserId is required", data := none,
      matched := none, ledger := ledger }
  | some t =>
    match findById users t with
    | none =>
      { httpStatus := 404, message := "User not found", data := none,
        matched := none, ledger := ledger }
    | some _ =>
      match findOnePair ledger loggedInUser t with
      | some existing =>
        { httpStatus := 200, message := "Already swiped", data := some existing,
          matched := some (findOnePairStatus ledger t loggedInUser
            CStatus.interested).isSome,
          ledger := ledger }
      | none =>
        match saveConnectionRequest ledger
            { fromUserId := loggedInUser, toUserId := t,
              status := CStatus.interested } with
        | Except.error msg =>
          { httpStatus := 400, message := msg, data := none,
            matched := none, ledger := ledger }
        | Except.ok saved =>
          if (findOnePairStatus ledger t loggedInUser CStatus.interested).isSome then
            { httpStatus := 200, message := "Its a match!",
              data := some { fromUserId := loggedInUser, toUserId := t,
                             status := CStatus.interested },
              matched := some true,
              ledger := acceptPair saved loggedInUser t }
          else
            { httpStatus := 200, message := "Connection request sent",
              data := some { fromUserId := loggedInUser, toUserId := t,
                             status := CStatus.interested },
              matched := some false,
              ledger := saved }

/-- The feed query parameters (`req.query`). -/
structure FeedQuery where
  page : QVal
  limit : QVal
  skills : QVal
  experience : QVal
  role : QVal
  availability : QVal
  location : QVal
deriving DecidableEq, Repr

/-- A feed query with every parameter absent. -/
def emptyQuery : FeedQuery :=
  { page := QVal.undef, limit := QVal.undef, skills := QVal.undef,
    experience := QVal.undef, role := QVal.undef, availability := QVal.undef,
    location := QVal.undef }

/-- The `GET /feed` response. -/
structure FeedResult where
  data : List User
  page : Nat
  limit : Nat
  hasMore : Bool
deriving DecidableEq, Repr

/-- The exclusion set: both endpoints of every `ConnectionRequest`
involving `loggedInUser`, regardless of status. -/
def hideUsersFromFeed (ledger : List ConnectionRequest) (loggedInUser : Nat) :
    List Nat :=
  (ledger.filter (fun r =>
      r.fromUserId == loggedInUser || r.toUserId == loggedInUser)).flatMap
    (fun r => [r.fromUserId, r.toUserId])

/-- Whether a user matches the feed `filterQuery` built from the exclusion
set and the optional profile filters. -/
def matchesFeedFilter (hide : List Nat) (loggedInUser : Nat)
    (skills : List String) (experience role availability location : String)
    (u : User) : Bool :=
  !(hide.contains u.uid) && u.uid != loggedInUser && u.isProfileComplete &&
  (skills.isEmpty || skills.any (fun s => u.skills.contains s)) &&
  (experience.isEmpty || experience == "any" || u.experience == experience) &&
  (role.isEmpty || role == "any" || u.role == role) &&
  (availability.isEmpty || availability == "any" || u.availability == availability) &&
  (location.isEmpty || containsCI u.location location)

/-- The candidate pool of `GET /feed` before pagination: the users
matching `filterQuery`, in collection order. -/
def feedCandidates (users : List User) (ledger : List ConnectionRequest)
    (loggedInUser : Nat) (q : FeedQuery) : List User :=
  users.filter (matchesFeedFilter (hideUsersFromFeed ledger loggedInUser)
    loggedInUser (normalizeSkills q.skills) (normalizeString q.experience)
    (normalizeString q.role) (normalizeString q.availability)
    (normalizeString q.location))

/-- The `GET /feed` handler: parse `page`/`limit` with defaults 1 and 10,
cap `limit` at 50, skip `(page-1)*limit` candidates, fetch `limit+1` to
derive `hasMore`, and return at most `limit` items. -/
def feed (users : List User) (ledger : List ConnectionRequest)
    (loggedInUser : Nat) (q : FeedQuery) : FeedResult :=
  let page := parsePositiveInt q.page 1
  let limit0 := parsePositiveInt q.limit 10
  let limit := if limit0 > 50 then 50 else limit0
  let skip := (page - 1) * limit
  let fetched := ((feedCandidates users ledger loggedInUser q).drop skip).take (limit + 1)
  let hasMore := fetched.length > limit
  let sliced := if hasMore then fetched.take limit else fetched
  { data := sliced, page := page, limit := limit, hasMore := hasMore }

/-- A swipe intent, for stating properties over both handlers at once. -/
inductive Intent where
  | left
  | right
deriving DecidableEq, Repr

/-- Dispatch a swipe by intent. -/
def applySwipe (intent : Intent) (users : List User)
    (ledger : List ConnectionRequest) (loggedInUser : Nat)
    (toUserId : Option Nat) : SwipeResult :=
  match intent with
  | Intent.left => swipeLeft users ledger loggedInUser toUserId
  | Intent.right => swipeRight users ledger loggedInUser toUserId

/-- Run a sequence of swipes, threading the ledger. -/
def runSwipes (users : List User) (ledger : List ConnectionRequest)
    (ops : List (Intent × Nat × Option Nat)) : List ConnectionRequest :=
  match ops with
  | [] => ledger
  | (i, a, t) :: rest =>
    runSwipes users (applySwipe i users ledger a t).ledger rest

/-- At most one record per ordered pair (the §3 uniqueness invariant). -/
def PairUnique (ledger : List ConnectionRequest) : Prop :=
  ledger.Pairwise (fun a b =>
    ¬(a.fromUserId = b.fromUserId ∧ a.toUserId = b.toUserId))


/-- Concrete users for witnesses. -/
def w1 : User :=
  { uid := 1, skills := ["go"], experience := "junior", role := "dev",
    availability := "full-time", location := "Pune", isProfileComplete := true }

/-- Concrete users for witnesses. -/
def w2 : User :=
  { uid := 2, skills := ["go"], experience := "junior", role := "dev",
    availability := "full-time", location := "Delhi", isProfileComplete := true }

/-- A concrete `interested` record 1→2 for witnesses. -/
def wr12i : ConnectionRequest :=
  { fromUserId := 1, toUserId := 2, status := CStatus.interested }

/-- A concrete `ignored` record 1→2 for witnesses. -/
def wr12g : ConnectionRequest :=
  { fromUserId := 1, toUserId := 2, status := CStatus.ignored }

/-- The forward status order of the state machine on an existing record:
a step keeps the status or promotes `interested` to `accepted`. -/
def StatusForward (before after : CStatus) : Prop :=
  after = before ∨ (before = CStatus.interested ∧ after = CStatus.accepted)


/-- If no record exists for an ordered pair, no status-refined lookup on
that pair succeeds either. -/
theorem findOnePairStatus_eq_none (ledger : List ConnectionRequest)
    (f t : Nat) (s : CStatus) (h : findOnePair ledger f t = none) :
    findOnePairStatus ledger f t s = none := by
  rw [findOnePair, List.find?_eq_none] at h
  rw [findOnePairStatus, List.find?_eq_none]
  intro x hx hc
  simp only [Bool.and_eq_true, beq_iff_eq] at hc
  exact h x hx (by simp [hc.1.1, hc.1.2])

/-- C2: a repeat right-swipe on an already-swiped target returns the
original record unchanged, leaves the ledger (hence its status) untouched,
and reports the match status computed from the reciprocal
`target→actor, status=interested` lookup. -/
theorem C2_repeat_right_swipe_idempotent (users : List User)
    (ledger : List ConnectionRequest) (actor t : Nat) (u : User)
    (ex : ConnectionRequest) (hu : findById users t = some u)
    (hex : findOnePair ledger actor t = some ex) :
    swipeRight users ledger actor (some t) =
      { httpStatus := 200, message := "Already swiped", data := some ex,
        matched := some (findOnePairStatus ledger t actor
          CStatus.interested).isSome,
        ledger := ledger } := by
  simp [swipeRight, hu, hex]

/-- Witness for C2 at a concrete input. -/
theorem C2_repeat_right_swipe_idempotent_witness :
    swipeRight [w1, w2] [wr12i] 1 (some 2) =
      { httpStatus := 200, message := "Already swiped", data := some wr12i,
        matched := some false, ledger := [wr12i] } := by
  have h := C2_repeat_right_swipe_idempotent [w1, w2] [wr12i] 1 2 w2 wr12i
    (by rfl) (by rfl)
  rw [h]
  rfl

/-- C9: a repeat swipe-left on an already-swiped target (any status)
returns the existing record and performs no write: the ledger is
unchanged, so no status ever regresses to `ignored`. -/
theorem C9_repeat_left_swipe_noop (users : List User)
    (ledger : List ConnectionRequest) (actor t : Nat) (u : User)
    (ex : ConnectionRequest) (hu : findById users t = some u)
    (hex : findOnePair ledger actor t = some ex) :
    swipeLeft users ledger actor (some t) =
      { httpStatus := 200, message := "Already swiped", data := some ex,
        matched := none, ledger := ledger } := by
  simp [swipeLeft, hu, hex]

/-- Witness for C9 at a concrete input: a left-swipe after a prior
right-swipe leaves the `interested` record intact. -/
theorem C9_repeat_left_swipe_noop_witness :
    swipeLeft [w1, w2] [wr12i] 1 (some 2) =
      { httpStatus := 200, message := "Already swiped", data := some wr12i,
        matched := none, ledger := [wr12i] } :=
  C9_repeat_left_swipe_noop [w1, w2] [wr12i] 1 2 w2 wr12i (by rfl) (by rfl)

/-- C7: for either swipe intent, a missing `toUserId` yields HTTP 400 and
an unknown target user yields HTTP 404, and in both cases the ledger is
unchanged (no partial writes). -/
theorem C7_swipe_validation_failures (intent : Intent) (users : List User)
    (ledger : List ConnectionRequest) (actor t : Nat)
    (hmiss : findById users t = none) :
    (applySwipe intent users ledger actor none).httpStatus = 400 ∧
    (applySwipe intent users ledger actor none).ledger = ledger ∧
    (applySwipe intent users ledger actor (some t)).httpStatus = 404 ∧
    (applySwipe intent users ledger actor (some t)).ledger = ledger := by
  cases intent <;> simp [applySwipe, swipeLeft, swipeRight, hmiss]

/-- Witness for C7 at a concrete input. -/
theorem C7_swipe_validation_failures_witness :
    (applySwipe Intent.left [] [] 1 none).httpStatus = 400 ∧
    (applySwipe Intent.left [] [] 1 none).ledger = [] ∧
    (applySwipe Intent.left [] [] 1 (some 2)).httpStatus = 404 ∧
    (applySwipe Intent.left [] [] 1 (some 2)).ledger = [] :=
  C7_swipe_validation_failures Intent.left [] [] 1 2 rfl

/-- Any endpoint of any record involving a user lands in that user's
feed-exclusion set: a record between A and B (either direction) puts B in
A's exclusion set. -/
theorem mem_hideUsersFromFeed (ledger : List ConnectionRequest) (A B : Nat)
    (r : ConnectionRequest) (hr : r ∈ ledger)
    (hAB : (r.fromUserId = A ∧ r.toUserId = B) ∨
           (r.fromUserId = B ∧ r.toUserId = A)) :
    B ∈ hideUsersFromFeed ledger A := by
  rw [hideUsersFromFeed]
  refine List.mem_flatMap.2 ⟨r, List.mem_filter.2 ⟨hr, ?_⟩, ?_⟩
  · rcases hAB with ⟨h1, h2⟩ | ⟨h1, h2⟩ <;> simp [h1, h2]
  · rcases hAB with ⟨h1, h2⟩ | ⟨h1, h2⟩ <;> simp [h1, h2]

/-- Membership in a conditionally truncated list implies membership in
the list. -/
theorem mem_of_mem_ite_take {α : Type} {u : α} (c : Prop) [Decidable c]
    (n : Nat) (l : List α) (h : u ∈ if c then l.take n else l) : u ∈ l := by
  split at h
  · exact List.mem_of_mem_take h
  · exact h

/-- Every feed item belongs to the filtered candidate pool. -/
theorem mem_candidates_of_mem_feed (users : List User)
    (ledger : List ConnectionRequest) (uid : Nat) (q : FeedQuery) (u : User)
    (hu : u ∈ (feed users ledger uid q).data) :
    u ∈ feedCandidates users ledger uid q := by
  simp only [feed] at hu
  exact List.mem_of_mem_drop (List.mem_of_mem_take (mem_of_mem_ite_take _ _ _ hu))

/-- A user matching the feed filter is not in the exclusion set. -/
theorem matches_not_hidden {hide : List Nat} {loggedInUser : Nat}
    {skills : List String} {experience role availability location : String}
    {u : User}
    (h : matchesFeedFilter hide loggedInUser skills experience role
      availability location u = true) :
    u.uid ∉ hide := by
  rw [matchesFeedFilter] at h
  simp only [Bool.and_eq_true, Bool.not_eq_true'] at h
  simpa using h.1.1.1.1.1.1.1

/-- Anyone in the viewer's exclusion set never appears in the viewer's
feed, for any filters and pagination. -/
theorem feed_excludes_hidden (users : List User)
    (ledger : List ConnectionRequest) (uid B : Nat) (q : FeedQuery)
    (hB : B ∈ hideUsersFromFeed ledger uid) :
    ∀ u ∈ (feed users ledger uid q).data, u.uid ≠ B := by
  intro u hu huB
  have hc := mem_candidates_of_mem_feed users ledger uid q u hu
  have hp := (List.mem_filter.1 (by simpa [feedCandidates] using hc)).2
  exact matches_not_hidden hp (huB ▸ hB)

/-- C3: once any ConnectionRequest exists between A and B (either
direction, any status), neither user appears in the other's feed, whatever
the filters and pagination of the later feed requests. -/
theorem C3_feed_exclusion_permanent (users : List User)
    (ledger : List ConnectionRequest) (A B : Nat) (qA qB : FeedQuery)
    (r : ConnectionRequest) (hr : r ∈ ledger)
    (hAB : (r.fromUserId = A ∧ r.toUserId = B) ∨
           (r.fromUserId = B ∧ r.toUserId = A)) :
    (∀ u ∈ (feed users ledger A qA).data, u.uid ≠ B) ∧
    (∀ u ∈ (feed users ledger B qB).data, u.uid ≠ A) := by
  constructor
  · exact feed_excludes_hidden users ledger A B qA
      (mem_hideUsersFromFeed ledger A B r hr hAB)
  · refine feed_excludes_hidden users ledger B A qB
      (mem_hideUsersFromFeed ledger B A r hr ?_)
    rcases hAB with ⟨h1, h2⟩ | ⟨h1, h2⟩
    · exact Or.inr ⟨h1, h2⟩
    · exact Or.inl ⟨h1, h2⟩

/-- Witness for C3 at a concrete input: with an `ignored` record 1→2 in
the ledger, user 2 is absent from user 1's feed and vice versa. -/
theorem C3_feed_exclusion_permanent_witness :
    ((feed [w1, w2] [wr12g] 1 emptyQuery).data.all fun u => u.uid != 2) ∧
    ((feed [w1, w2] [wr12g] 2 emptyQuery).data.all fun u => u.uid != 1) := by
  have h := C3_feed_exclusion_permanent [w1, w2] [wr12g] 1 2 emptyQuery
    emptyQuery wr12g (by simp) (Or.inl ⟨rfl, rfl⟩)
  constructor
  · exact List.all_eq_true.2 fun u hu => by simpa using h.1 u hu
  · exact List.all_eq_true.2 fun u hu => by simpa using h.2 u hu

/-- Counterexample to C5 as stated: user 1 swipes left on user 2, user 2
has made no signal toward user 1 (no record with fromUserId 2 exists), and
user 1 would appear in user 2's feed absent the record — yet after the
left-swipe user 1 is excluded from user 2's feed, because the exclusion
set collects both endpoints of every record involving the viewer. -/
theorem C5_counterexample_left_swiper_hidden :
    (swipeLeft [w1, w2] [] 1 (some 2)).ledger = [wr12g] ∧
    ((swipeLeft [w1, w2] [] 1 (some 2)).ledger.filter
      (fun r => r.fromUserId == 2)) = [] ∧
    (feed [w1, w2] [] 2 emptyQuery).data = [w1] ∧
    (feed [w1, w2] (swipeLeft [w1, w2] [] 1 (some 2)).ledger 2
      emptyQuery).data = [] :=
  ⟨rfl, rfl, rfl, rfl⟩

/-- C5 (amended): for users A ≠ B with no prior records between them,
after A swipes left on B exactly one record A→B exists and it has
status `ignored`, no record B→A exists, and B is absent from A's feed —
but, contrary to the claim as stated, A is likewise absent from B's feed
even though B made no signal, since any record in either direction
excludes both endpoints from both feeds. -/
theorem C5_left_swipe_record_and_feeds (users : List User)
    (ledger : List ConnectionRequest) (A B : Nat) (qA qB : FeedQuery)
    (uB : User) (hB : findById users B = some uB) (hne : A ≠ B)
    (hAB : findOnePair ledger A B = none)
    (hBA : findOnePair ledger B A = none) :
    ((swipeLeft users ledger A (some B)).ledger.filter
        (fun r => r.fromUserId == A && r.toUserId == B)) =
      [{ fromUserId := A, toUserId := B, status := CStatus.ignored }] ∧
    ((swipeLeft users ledger A (some B)).ledger.filter
        (fun r => r.fromUserId == B && r.toUserId == A)) = [] ∧
    (∀ u ∈ (feed users (swipeLeft users ledger A (some B)).ledger A qA).data,
      u.uid ≠ B) ∧
    (∀ u ∈ (feed users (swipeLeft users ledger A (some B)).ledger B qB).data,
      u.uid ≠ A) := by
  have hsave : saveConnectionRequest ledger
      { fromUserId := A, toUserId := B, status := CStatus.ignored } =
      Except.ok (ledger ++
        [({ fromUserId := A, toUserId := B, status := CStatus.ignored } : ConnectionRequest)]) := by
    simp [saveConnectionRequest, hne]
  have hled : (swipeLeft users ledger A (some B)).ledger =
      ledger ++
        [({ fromUserId := A, toUserId := B, status := CStatus.ignored } : ConnectionRequest)] := by
    simp [swipeLeft, hB, hAB, hsave]
  have hmemrec : ({ fromUserId := A, toUserId := B, status := CStatus.ignored } : ConnectionRequest) ∈
      (swipeLeft users ledger A (some B)).ledger := by
    rw [hled]; exact List.mem_append.2 (Or.inr (List.mem_singleton.2 rfl))
  rw [findOnePair, List.find?_eq_none] at hAB hBA
  refine ⟨?_, ?_, ?_, ?_⟩
  · rw [hled, List.filter_append]
    rw [List.filter_eq_nil_iff.2 hAB]
    simp
  · rw [hled, List.filter_append]
    rw [List.filter_eq_nil_iff.2 hBA]
    simp [Ne.symm hne]
  · exact feed_excludes_hidden users _ A B qA
      (mem_hideUsersFromFeed _ A B _ hmemrec (Or.inl ⟨rfl, rfl⟩))
  · exact feed_excludes_hidden users _ B A qB
      (mem_hideUsersFromFeed _ B A _ hmemrec (Or.inr ⟨rfl, rfl⟩))

/-- Witness for the amended C5 at a concrete input. -/
theorem C5_left_swipe_record_and_feeds_witness :
    ((swipeLeft [w1, w2] [] 1 (some 2)).ledger.filter
        (fun r => r.fromUserId == 1 && r.toUserId == 2)) =
      [{ fromUserId := 1, toUserId := 2, status := CStatus.ignored }] ∧
    ((swipeLeft [w1, w2] [] 1 (some 2)).ledger.filter
        (fun r => r.fromUserId == 2 && r.toUserId == 1)) = [] :=
  ⟨(C5_left_swipe_record_and_feeds [w1, w2] [] 1 2 emptyQuery emptyQuery w2
      rfl (by decide) rfl rfl).1,
   (C5_left_swipe_record_and_feeds [w1, w2] [] 1 2 emptyQuery emptyQuery w2
      rfl (by decide) rfl rfl).2.1⟩

/-- C1: for distinct users A and B with no prior records between them,
after A swipes right on B and then B swipes right on A, the first swipe
reports `matched = false`, the completing swipe reports `matched = true`,
both directional records exist, and every record between A and B in the
final ledger has status `accepted`. (A and B are universally quantified,
so the statement covers both orders of the two swipes.) -/
theorem C1_mutual_right_swipes_match (users : List User)
    (ledger : List ConnectionRequest) (A B : Nat) (uA uB : User)
    (hA : findById users A = some uA) (hB : findById users B = some uB)
    (hne : A ≠ B)
    (hAB : findOnePair ledger A B = none)
    (hBA : findOnePair ledger B A = none) :
    (swipeRight users ledger A (some B)).matched = some false ∧
    (swipeRight users (swipeRight users ledger A (some B)).ledger B
      (some A)).matched = some true ∧
    (∃ r ∈ (swipeRight users (swipeRight users ledger A (some B)).ledger B
        (some A)).ledger, r.fromUserId = A ∧ r.toUserId = B) ∧
    (∃ r ∈ (swipeRight users (swipeRight users ledger A (some B)).ledger B
        (some A)).ledger, r.fromUserId = B ∧ r.toUserId = A) ∧
    (∀ r ∈ (swipeRight users (swipeRight users ledger A (some B)).ledger B
        (some A)).ledger,
      (r.fromUserId = A ∧ r.toUserId = B) ∨
        (r.fromUserId = B ∧ r.toUserId = A) → r.status = CStatus.accepted) := by
  have hAeqB : (A == B) = false := by simpa using hne
  have hBeqA : (B == A) = false := by simpa using Ne.symm hne
  have hrecip1 : findOnePairStatus ledger B A CStatus.interested = none :=
    findOnePairStatus_eq_none ledger B A CStatus.interested hBA
  have e1 : swipeRight users ledger A (some B) =
      { httpStatus := 200, message := "Connection request sent",
        data := some { fromUserId := A, toUserId := B, status := CStatus.interested },
        matched := some false,
        ledger := ledger ++
          [({ fromUserId := A, toUserId := B, status := CStatus.interested } : ConnectionRequest)] } := by
    simp [swipeRight, hB, hAB, hrecip1, saveConnectionRequest, hAeqB]
  have hfind1 : findOnePair (ledger ++
      [({ fromUserId := A, toUserId := B, status := CStatus.interested } : ConnectionRequest)]) B A = none := by
    rw [findOnePair, List.find?_append]
    rw [findOnePair] at hBA
    rw [hBA]
    simp [hAeqB]
  have hAB0 := findOnePairStatus_eq_none ledger A B CStatus.interested hAB
  have hfind2 : findOnePairStatus (ledger ++
      [({ fromUserId := A, toUserId := B, status := CStatus.interested } : ConnectionRequest)]) A B
      CStatus.interested =
      some { fromUserId := A, toUserId := B, status := CStatus.interested } := by
    rw [findOnePairStatus, List.find?_append]
    rw [findOnePairStatus] at hAB0
    rw [hAB0]
    simp
  have e2 : swipeRight users (ledger ++
      [({ fromUserId := A, toUserId := B, status := CStatus.interested } : ConnectionRequest)]) B
      (some A) =
      { httpStatus := 200, message := "Its a match!",
        data := some { fromUserId := B, toUserId := A, status := CStatus.interested },
        matched := some true,
        ledger := acceptPair ((ledger ++
          [({ fromUserId := A, toUserId := B, status := CStatus.interested } : ConnectionRequest)]) ++
          [({ fromUserId := B, toUserId := A, status := CStatus.interested } : ConnectionRequest)]) B A } := by
    simp [swipeRight, hA, hfind1, hfind2, saveConnectionRequest, hBeqA]
  rw [e1]
  simp only
  rw [e2]
  simp only
  rw [findOnePair, List.find?_eq_none] at hAB hBA
  refine ⟨trivial, trivial, ?_, ?_, ?_⟩
  · refine ⟨{ fromUserId := A, toUserId := B, status := CStatus.accepted }, ?_, rfl, rfl⟩
    rw [acceptPair]
    refine List.mem_map.2
      ⟨{ fromUserId := A, toUserId := B, status := CStatus.interested }, ?_, ?_⟩
    · simp
    · simp [pairFilter, hAeqB]
  · refine ⟨{ fromUserId := B, toUserId := A, status := CStatus.accepted }, ?_, rfl, rfl⟩
    rw [acceptPair]
    refine List.mem_map.2
      ⟨{ fromUserId := B, toUserId := A, status := CStatus.interested }, ?_, ?_⟩
    · simp
    · simp [pairFilter, hBeqA]
  · intro r hr hpair
    rw [acceptPair] at hr
    obtain ⟨r0, hr0, hfr⟩ := List.mem_map.1 hr
    have hfromto : r.fromUserId = r0.fromUserId ∧ r.toUserId = r0.toUserId := by
      by_cases hpf : pairFilter B A r0 = true <;> simp [hpf] at hfr <;>
        rw [← hfr] <;> exact ⟨rfl, rfl⟩
    rcases List.mem_append.1 hr0 with hmem | hnew
    · rcases List.mem_append.1 hmem with hold | hAB1
      · exfalso
        rcases hpair with ⟨h1, h2⟩ | ⟨h1, h2⟩
        · exact hAB r0 hold (by
            simp only [Bool.and_eq_true, beq_iff_eq]
            constructor
            · rw [← hfromto.1]; exact h1
            · rw [← hfromto.2]; exact h2)
        · exact hBA r0 hold (by
            simp only [Bool.and_eq_true, beq_iff_eq]
            constructor
            · rw [← hfromto.1]; exact h1
            · rw [← hfromto.2]; exact h2)
      · have : r0 = { fromUserId := A, toUserId := B, status := CStatus.interested } := by
          simpa using hAB1
        rw [← hfr, this]
        simp [pairFilter, hAeqB]
    · have : r0 = { fromUserId := B, toUserId := A, status := CStatus.interested } := by
        simpa using hnew
      rw [← hfr, this]
      simp [pairFilter, hBeqA]

/-- Witness for C1 at a concrete input. -/
theorem C1_mutual_right_swipes_match_witness :
    (swipeRight [w1, w2] [] 1 (some 2)).matched = some false ∧
    (swipeRight [w1, w2] (swipeRight [w1, w2] [] 1 (some 2)).ledger 2
      (some 1)).matched = some true :=
  ⟨(C1_mutual_right_swipes_match [w1, w2] [] 1 2 w1 w2 rfl rfl (by decide)
      rfl rfl).1,
   (C1_mutual_right_swipes_match [w1, w2] [] 1 2 w1 w2 rfl rfl (by decide)
      rfl rfl).2.1⟩

/-- `StatusForward` is transitive. -/
theorem StatusForward.trans {a b c : CStatus} (h1 : StatusForward a b)
    (h2 : StatusForward b c) : StatusForward a c := by
  rcases h1 with h1 | ⟨h1a, h1b⟩
  · rw [h1] at h2
    exact h2
  · rcases h2 with h2 | ⟨h2a, h2b⟩
    · rw [h2, h1b]
      exact Or.inr ⟨h1a, rfl⟩
    · rw [h1b] at h2a
      cases h2a

/-- The possible ledger outcomes of a left swipe: unchanged, or a new
`ignored` record appended when none existed and the target is valid. -/
theorem swipeLeft_ledger_cases (users : List User)
    (ledger : List ConnectionRequest) (actor : Nat) (body : Option Nat) :
    (swipeLeft users ledger actor body).ledger = ledger ∨
    ∃ t, body = some t ∧ (actor == t) = false ∧
      findOnePair ledger actor t = none ∧
      (swipeLeft users ledger actor body).ledger = ledger ++
        [({ fromUserId := actor, toUserId := t, status := CStatus.ignored } : ConnectionRequest)] := by
  cases body with
  | none => exact Or.inl (by simp [swipeLeft])
  | some t =>
    cases hfind : findById users t with
    | none => exact Or.inl (by simp [swipeLeft, hfind])
    | some u =>
      cases hex : findOnePair ledger actor t with
      | some ex => exact Or.inl (by simp [swipeLeft, hfind, hex])
      | none =>
        by_cases hself : (actor == t) = true
        · exact Or.inl (by simp [swipeLeft, hfind, hex, saveConnectionRequest, hself])
        · refine Or.inr ⟨t, rfl, by simpa using hself, hex, ?_⟩
          simp [swipeLeft, hfind, hex, saveConnectionRequest, hself]

/-- The possible ledger outcomes of a right swipe: unchanged; a new
`interested` record appended; or, in the match case, the append followed
by the accept flip of both directional records. -/
theorem swipeRight_ledger_cases (users : List User)
    (ledger : List ConnectionRequest) (actor : Nat) (body : Option Nat) :
    (swipeRight users ledger actor body).ledger = ledger ∨
    ∃ t, body = some t ∧ (actor == t) = false ∧
      findOnePair ledger actor t = none ∧
      ((findOnePairStatus ledger t actor CStatus.interested = none ∧
        (swipeRight users ledger actor body).ledger = ledger ++
          [({ fromUserId := actor, toUserId := t, status := CStatus.interested } : ConnectionRequest)]) ∨
       (∃ rec0, findOnePairStatus ledger t actor CStatus.interested = some rec0 ∧
        (swipeRight users ledger actor body).ledger =
          acceptPair (ledger ++
            [({ fromUserId := actor, toUserId := t, status := CStatus.interested } : ConnectionRequest)])
            actor t)) := by
  cases body with
  | none => exact Or.inl (by simp [swipeRight])
  | some t =>
    cases hfind : findById users t with
    | none => exact Or.inl (by simp [swipeRight, hfind])
    | some u =>
      cases hex : findOnePair ledger actor t with
      | some ex => exact Or.inl (by simp [swipeRight, hfind, hex])
      | none =>
        by_cases hself : (actor == t) = true
        · exact Or.inl (by simp [swipeRight, hfind, hex, saveConnectionRequest, hself])
        · cases hrec : findOnePairStatus ledger t actor CStatus.interested with
          | none =>
            refine Or.inr ⟨t, rfl, by simpa using hself, hex, Or.inl ⟨hrec, ?_⟩⟩
            simp [swipeRight, hfind, hex, saveConnectionRequest, hself, hrec]
          | some rec0 =>
            refine Or.inr ⟨t, rfl, by simpa using hself, hex, Or.inr ⟨rec0, hrec, ?_⟩⟩
            simp [swipeRight, hfind, hex, saveConnectionRequest, hself, hrec]

/-- Appending a record for an ordered pair with no existing record
preserves pair-uniqueness. -/
theorem pairUnique_append_new (ledger : List ConnectionRequest)
    (actor t : Nat) (s : CStatus) (hex : findOnePair ledger actor t = none)
    (hU : PairUnique ledger) :
    PairUnique (ledger ++
      [({ fromUserId := actor, toUserId := t, status := s } : ConnectionRequest)]) := by
  rw [PairUnique, List.pairwise_append]
  refine ⟨hU, List.pairwise_singleton _ _, ?_⟩
  intro a ha b hb
  have hb1 : b = { fromUserId := actor, toUserId := t, status := s } := by
    simpa using hb
  rw [findOnePair, List.find?_eq_none] at hex
  intro hcon
  rw [hb1] at hcon
  exact hex a ha (by
    simp only [Bool.and_eq_true, beq_iff_eq]
    exact ⟨hcon.1, hcon.2⟩)

/-- The accept flip preserves pair-uniqueness (it never changes the
endpoints of a record). -/
theorem pairUnique_acceptPair (l : List ConnectionRequest) (a t : Nat)
    (hU : PairUnique l) : PairUnique (acceptPair l a t) := by
  rw [PairUnique, acceptPair, List.pairwise_map]
  refine hU.imp ?_
  intro x y hxy
  by_cases h1 : pairFilter a t x = true <;> by_cases h2 : pairFilter a t y = true <;>
    simp only [h1, h2, if_true, if_false, Bool.false_eq_true, ite_false, ite_true] <;>
    exact hxy

/-- In a pair-unique ledger, two records with the same endpoints are the
same record. -/
theorem pairUnique_eq_of_same_pair {l : List ConnectionRequest}
    (h : PairUnique l) {a b : ConnectionRequest} (ha : a ∈ l) (hb : b ∈ l)
    (h1 : a.fromUserId = b.fromUserId) (h2 : a.toUserId = b.toUserId) :
    a = b := by
  induction l with
  | nil => cases ha
  | cons x xs ih =>
    rw [PairUnique, List.pairwise_cons] at h
    rcases List.mem_cons.1 ha with rfl | ha0
    · rcases List.mem_cons.1 hb with rfl | hb0
      · rfl
      · exact absurd ⟨h1, h2⟩ (h.1 b hb0)
    · rcases List.mem_cons.1 hb with rfl | hb0
      · exact absurd ⟨h1.symm, h2.symm⟩ (h.1 a ha0)
      · exact ih h.2 ha0 hb0

/-- Elements reached through the accept flip: endpoints are preserved and
the status is either untouched or flipped to `accepted` for a record of
the unordered pair. -/
theorem acceptPair_provenance (l : List ConnectionRequest) (a t : Nat)
    (r : ConnectionRequest) (hr : r ∈ acceptPair l a t) :
    ∃ r0 ∈ l, r.fromUserId = r0.fromUserId ∧ r.toUserId = r0.toUserId ∧
      (r.status = r0.status ∨
        (pairFilter a t r0 = true ∧ r.status = CStatus.accepted)) := by
  rw [acceptPair] at hr
  obtain ⟨r0, hr0, hfr⟩ := List.mem_map.1 hr
  refine ⟨r0, hr0, ?_⟩
  by_cases hpf : pairFilter a t r0 = true
  · rw [if_pos hpf] at hfr
    rw [← hfr]
    exact ⟨rfl, rfl, Or.inr ⟨hpf, rfl⟩⟩
  · rw [if_neg hpf] at hfr
    rw [← hfr]
    exact ⟨rfl, rfl, Or.inl rfl⟩

/-- One swipe (either intent) preserves pair-uniqueness. -/
theorem swipe_step_pairUnique (intent : Intent) (users : List User)
    (ledger : List ConnectionRequest) (actor : Nat) (body : Option Nat)
    (hU : PairUnique ledger) :
    PairUnique (applySwipe intent users ledger actor body).ledger := by
  cases intent with
  | left =>
    rcases swipeLeft_ledger_cases users ledger actor body with heq |
      ⟨t, hbody, hself, hex, heq⟩
    · rw [applySwipe, heq]; exact hU
    · rw [applySwipe, heq]; exact pairUnique_append_new ledger actor t _ hex hU
  | right =>
    rcases swipeRight_ledger_cases users ledger actor body with heq |
      ⟨t, hbody, hself, hex, hcase⟩
    · rw [applySwipe, heq]; exact hU
    · rcases hcase with ⟨hrec, heq⟩ | ⟨rec0, hrec, heq⟩
      · rw [applySwipe, heq]; exact pairUnique_append_new ledger actor t _ hex hU
      · rw [applySwipe, heq]
        exact pairUnique_acceptPair _ actor t
          (pairUnique_append_new ledger actor t _ hex hU)

/-- One swipe (either intent) keeps every existing record's endpoints, and
moves its status only forward: unchanged, or `interested` to `accepted`. -/
theorem swipe_step_forward (intent : Intent) (users : List User)
    (ledger : List ConnectionRequest) (actor : Nat) (body : Option Nat)
    (hU : PairUnique ledger) :
    ∀ r ∈ ledger, ∃ q ∈ (applySwipe intent users ledger actor body).ledger,
      q.fromUserId = r.fromUserId ∧ q.toUserId = r.toUserId ∧
      StatusForward r.status q.status := by
  intro r hr
  cases intent with
  | left =>
    rcases swipeLeft_ledger_cases users ledger actor body with heq |
      ⟨t, hbody, hself, hex, heq⟩
    · exact ⟨r, by rw [applySwipe, heq]; exact hr, rfl, rfl, Or.inl rfl⟩
    · exact ⟨r, by rw [applySwipe, heq]; exact List.mem_append.2 (Or.inl hr),
        rfl, rfl, Or.inl rfl⟩
  | right =>
    rcases swipeRight_ledger_cases users ledger actor body with heq |
      ⟨t, hbody, hself, hex, hcase⟩
    · exact ⟨r, by rw [applySwipe, heq]; exact hr, rfl, rfl, Or.inl rfl⟩
    · rcases hcase with ⟨hrec, heq⟩ | ⟨rec0, hrec, heq⟩
      · exact ⟨r, by rw [applySwipe, heq]; exact List.mem_append.2 (Or.inl hr),
          rfl, rfl, Or.inl rfl⟩
      · by_cases hpf : pairFilter actor t r = true
        · have hprops := List.find?_some hrec
          simp only [Bool.and_eq_true, beq_iff_eq] at hprops
          have hr0mem : rec0 ∈ ledger := List.mem_of_find?_eq_some hrec
          rw [pairFilter, Bool.or_eq_true] at hpf
          simp only [Bool.and_eq_true, beq_iff_eq] at hpf
          rcases hpf with ⟨hf1, hf2⟩ | ⟨hf1, hf2⟩
          · exfalso
            rw [findOnePair, List.find?_eq_none] at hex
            exact hex r hr (by simp only [Bool.and_eq_true, beq_iff_eq]
                               exact ⟨hf1, hf2⟩)
          · have hreq : r = rec0 := pairUnique_eq_of_same_pair hU hr hr0mem
              (by rw [hf1, hprops.1.1]) (by rw [hf2, hprops.1.2])
            have hstat : r.status = CStatus.interested := by
              rw [hreq]; exact hprops.2
            refine ⟨{ r with status := CStatus.accepted }, ?_, rfl, rfl,
              Or.inr ⟨hstat, rfl⟩⟩
            rw [applySwipe, heq, acceptPair]
            refine List.mem_map.2 ⟨r, List.mem_append.2 (Or.inl hr), ?_⟩
            rw [if_pos (by rw [pairFilter, Bool.or_eq_true]
                           simp only [Bool.and_eq_true, beq_iff_eq]
                           exact Or.inr ⟨hf1, hf2⟩)]
        · refine ⟨r, ?_, rfl, rfl, Or.inl rfl⟩
          rw [applySwipe, heq, acceptPair]
          refine List.mem_map.2 ⟨r, List.mem_append.2 (Or.inl hr), ?_⟩
          rw [if_neg hpf]

/-- Pair-uniqueness is preserved by any sequence of swipes. -/
theorem runSwipes_pairUnique (users : List User)
    (ops : List (Intent × Nat × Option Nat)) :
    ∀ ledger, PairUnique ledger → PairUnique (runSwipes users ledger ops) := by
  induction ops with
  | nil => intro l h; exact h
  | cons op rest ih =>
    intro l h
    obtain ⟨i, a, t⟩ := op
    exact ih _ (swipe_step_pairUnique i users l a t h)

/-- C4: starting from any pair-unique ledger, under every sequence of
swipe operations each existing record keeps its endpoints (no record is
ever deleted) and its status moves only forward (unchanged or
`interested` to `accepted`); in particular an `ignored` record keeps
status `ignored` forever, so `ignored` to `accepted` never occurs. -/
theorem C4_status_forward_only (users : List User)
    (ledger : List ConnectionRequest)
    (ops : List (Intent × Nat × Option Nat)) (hU : PairUnique ledger) :
    (∀ r ∈ ledger, ∃ q ∈ runSwipes users ledger ops,
      q.fromUserId = r.fromUserId ∧ q.toUserId = r.toUserId ∧
      StatusForward r.status q.status) ∧
    (∀ r ∈ ledger, r.status = CStatus.ignored →
      ∀ q ∈ runSwipes users ledger ops,
        q.fromUserId = r.fromUserId → q.toUserId = r.toUserId →
        q.status = CStatus.ignored) := by
  have main : ∀ ops2 : List (Intent × Nat × Option Nat),
      ∀ l, PairUnique l → ∀ r ∈ l, ∃ q ∈ runSwipes users l ops2,
        q.fromUserId = r.fromUserId ∧ q.toUserId = r.toUserId ∧
        StatusForward r.status q.status := by
    intro ops2
    induction ops2 with
    | nil => intro l hUl r hr; exact ⟨r, hr, rfl, rfl, Or.inl rfl⟩
    | cons op rest ih =>
      intro l hUl r hr
      obtain ⟨i, a, t⟩ := op
      obtain ⟨q1, hq1, hf1, ht1, hs1⟩ := swipe_step_forward i users l a t hUl r hr
      obtain ⟨q2, hq2, hf2, ht2, hs2⟩ :=
        ih _ (swipe_step_pairUnique i users l a t hUl) q1 hq1
      exact ⟨q2, by simpa [runSwipes] using hq2, by rw [hf2, hf1],
        by rw [ht2, ht1], StatusForward.trans hs1 hs2⟩
  refine ⟨main ops ledger hU, ?_⟩
  intro r hr hig q hq hf ht
  obtain ⟨q1, hq1, hf1, ht1, hs1⟩ := main ops ledger hU r hr
  have hqq1 : q = q1 := pairUnique_eq_of_same_pair
    (runSwipes_pairUnique users ops ledger hU) hq hq1
    (by rw [hf, hf1]) (by rw [ht, ht1])
  rw [hig] at hs1
  rcases hs1 with hs | ⟨hcon, _⟩
  · rw [hqq1, hs]
  · cases hcon

/-- Witness for C4 at a concrete input: an `ignored` record 1→2 stays
`ignored` after user 2 swipes right on user 1. -/
theorem C4_status_forward_only_witness :
    ((runSwipes [w1, w2] [wr12g] [(Intent.right, 2, some 1)]).filter
      (fun q => q.fromUserId == 1 && q.toUserId == 2)).all
      (fun q => q.status == CStatus.ignored) = true := by
  have h := C4_status_forward_only [w1, w2] [wr12g] [(Intent.right, 2, some 1)]
    (by rw [PairUnique]; exact List.pairwise_singleton _ _)
  refine List.all_eq_true.2 fun q hq => ?_
  have hm := List.mem_filter.1 hq
  have hp := hm.2
  simp only [Bool.and_eq_true, beq_iff_eq] at hp
  have hres := h.2 wr12g (by simp) rfl q hm.1 (by rw [hp.1]; rfl)
    (by rw [hp.2]; rfl)
  simp [hres]

/-- One swipe (either intent) preserves the no-self-request invariant. -/
theorem swipe_step_no_self (intent : Intent) (users : List User)
    (ledger : List ConnectionRequest) (actor : Nat) (body : Option Nat)
    (h : ∀ r ∈ ledger, r.fromUserId ≠ r.toUserId) :
    ∀ r ∈ (applySwipe intent users ledger actor body).ledger,
      r.fromUserId ≠ r.toUserId := by
  intro r hr
  cases intent with
  | left =>
    rcases swipeLeft_ledger_cases users ledger actor body with heq |
      ⟨t, hbody, hself, hex, heq⟩
    · rw [applySwipe, heq] at hr; exact h r hr
    · rw [applySwipe, heq] at hr
      rcases List.mem_append.1 hr with h1 | h2
      · exact h r h1
      · have hr2 : r = { fromUserId := actor, toUserId := t, status := CStatus.ignored } := by
          simpa using h2
        rw [hr2]
        simpa using hself
  | right =>
    rcases swipeRight_ledger_cases users ledger actor body with heq |
      ⟨t, hbody, hself, hex, hcase⟩
    · rw [applySwipe, heq] at hr; exact h r hr
    · have hnew : ∀ s ∈ ledger ++
          [({ fromUserId := actor, toUserId := t, status := CStatus.interested } : ConnectionRequest)],
          s.fromUserId ≠ s.toUserId := by
        intro s hs
        rcases List.mem_append.1 hs with h1 | h2
        · exact h s h1
        · have hs2 : s = { fromUserId := actor, toUserId := t, status := CStatus.interested } := by
            simpa using h2
          rw [hs2]
          simpa using hself
      rcases hcase with ⟨hrec, heq⟩ | ⟨rec0, hrec, heq⟩
      · rw [applySwipe, heq] at hr; exact hnew r hr
      · rw [applySwipe, heq] at hr
        obtain ⟨r0, hr0, hfrom, hto, _⟩ := acceptPair_provenance _ actor t r hr
        rw [hfrom, hto]
        exact hnew r0 hr0

/-- C8: no sequence of swipes ever creates a record whose `fromUserId`
equals its `toUserId`; in particular a self-targeted swipe creates no
record (the modelled save-time validation of the ConnectionRequest model
rejects it). -/
theorem C8_no_self_request_records (users : List User)
    (ledger : List ConnectionRequest)
    (ops : List (Intent × Nat × Option Nat))
    (h : ∀ r ∈ ledger, r.fromUserId ≠ r.toUserId) :
    ∀ r ∈ runSwipes users ledger ops, r.fromUserId ≠ r.toUserId := by
  induction ops generalizing ledger with
  | nil => exact h
  | cons op rest ih =>
    obtain ⟨i, a, t⟩ := op
    intro r hr
    exact ih _ (swipe_step_no_self i users ledger a t h) r
      (by simpa [runSwipes] using hr)

/-- Witness for C8 at a concrete input: a self right-swipe leaves an empty
ledger empty. -/
theorem C8_no_self_request_records_witness :
    ((runSwipes [w1, w2] [] [(Intent.right, 1, some 1)]).filter
      (fun r => r.fromUserId == r.toUserId)) = [] := by
  have h := C8_no_self_request_records [w1, w2] []
    [(Intent.right, 1, some 1)] (by intro r hr; cases hr)
  refine List.filter_eq_nil_iff.2 fun r hr => ?_
  have := h r hr
  simpa using this

/-- `getElem?` through a conditional truncation. -/
theorem getElem?_ite_take_some {α : Type} (c : Prop) [inst : Decidable c]
    (n : Nat) (l : List α) (i : Nat) (a : α)
    (h : (if c then l.take n else l)[i]? = some a) : l[i]? = some a := by
  split at h
  · rw [List.getElem?_take] at h
    split at h
    · exact h
    · exact absurd h (by simp)
  · exact h

/-- `getElem?` through `take`: a hit in the truncated list is a hit in
the list. -/
theorem getElem?_take_some {α : Type} {l : List α} {n i : Nat} {a : α}
    (h : (l.take n)[i]? = some a) : l[i]? = some a := by
  rw [List.getElem?_take] at h
  split at h
  · exact h
  · exact absurd h (by simp)

/-- `parsePositiveInt` never returns less than a positive fallback. -/
theorem one_le_parsePositiveInt (v : QVal) (fb : Nat) (h : 1 ≤ fb) :
    1 ≤ parsePositiveInt v fb := by
  rw [parsePositiveInt]
  cases jsParseInt (jsString v) with
  | none => exact h
  | some n =>
    simp only
    split
    · exact h
    · omega

/-- C6: the feed limit is capped at 50. With `limit=50` and at least 51
eligible candidates the feed returns exactly 50 items and
`hasMore = true`; `limit=10000` produces the same response as `limit=50`;
and `hasMore` is exactly the comparison of the `limit+1`-row fetch length
against `limit`. -/
theorem C6_feed_limit_cap (users : List User)
    (ledger : List ConnectionRequest) (uid : Nat) (q : FeedQuery)
    (hpage : q.page = QVal.undef) (hlimit : q.limit = QVal.str "50")
    (hcount : 51 ≤ (feedCandidates users ledger uid q).length) :
    (feed users ledger uid q).limit = 50 ∧
    (feed users ledger uid q).data.length = 50 ∧
    (feed users ledger uid q).hasMore = true ∧
    (∀ q2 : FeedQuery, q2.limit = QVal.str "10000" →
      feed users ledger uid q2 =
        feed users ledger uid { q2 with limit := QVal.str "50" }) ∧
    (∀ q2 : FeedQuery, (feed users ledger uid q2).hasMore =
      decide ((feed users ledger uid q2).limit <
        (((feedCandidates users ledger uid q2).drop
          (((feed users ledger uid q2).page - 1) *
            (feed users ledger uid q2).limit)).take
          ((feed users ledger uid q2).limit + 1)).length)) := by
  have hp1 : parsePositiveInt QVal.undef 1 = 1 := by rfl
  have hp50 : parsePositiveInt (QVal.str "50") 10 = 50 := by rfl
  have hp10000 : parsePositiveInt (QVal.str "10000") 10 = 10000 := by rfl
  refine ⟨?_, ?_, ?_, ?_, ?_⟩
  · simp [feed, hpage, hlimit, hp1, hp50]
  · simp only [feed, hpage, hlimit, hp1, hp50]
    norm_num
    rw [if_pos (by omega : 50 < (feedCandidates users ledger uid q).length)]
    simp [List.take_take, List.length_take]
    omega
  · simp only [feed, hpage, hlimit, hp1, hp50]
    norm_num
    omega
  · intro q2 hq2
    have hcand : feedCandidates users ledger uid
        { q2 with limit := QVal.str "50" } = feedCandidates users ledger uid q2 := rfl
    simp [feed, hq2, hp10000, hp50, hcand]
  · intro q2
    rfl

/-- Witness for C6 at a concrete input: 51 complete profiles, viewer 100,
empty ledger, `limit=50`. -/
theorem C6_feed_limit_cap_witness :
    (feed ((List.range 51).map (fun i =>
        { uid := i, skills := [], experience := "junior", role := "dev",
          availability := "full-time", location := "Pune",
          isProfileComplete := true })) [] 100
      { emptyQuery with limit := QVal.str "50" }).limit = 50 ∧
    (feed ((List.range 51).map (fun i =>
        { uid := i, skills := [], experience := "junior", role := "dev",
          availability := "full-time", location := "Pune",
          isProfileComplete := true })) [] 100
      { emptyQuery with limit := QVal.str "50" }).data.length = 50 ∧
    (feed ((List.range 51).map (fun i =>
        { uid := i, skills := [], experience := "junior", role := "dev",
          availability := "full-time", location := "Pune",
          isProfileComplete := true })) [] 100
      { emptyQuery with limit := QVal.str "50" }).hasMore = true := by
  have h := C6_feed_limit_cap ((List.range 51).map (fun i =>
      { uid := i, skills := [], experience := "junior", role := "dev",
        availability := "full-time", location := "Pune",
        isProfileComplete := true })) [] 100
    { emptyQuery with limit := QVal.str "50" } rfl rfl (by decide)
  exact ⟨h.1, h.2.1, h.2.2.1⟩

/-- C10: missing, non-numeric, zero or negative `page`/`limit` parameters
fall back to the defaults 1 and 10; the parsed page and limit are always
at least 1; and the i-th returned feed item is the `(page-1)*limit + i`-th
eligible candidate, i.e. exactly `(page-1)*limit` candidates are skipped. -/
theorem C10_feed_param_parsing (users : List User)
    (ledger : List ConnectionRequest) (uid : Nat) (q : FeedQuery) :
    (jsParseInt (jsString q.page) = none → (feed users ledger uid q).page = 1) ∧
    (∀ n : Int, jsParseInt (jsString q.page) = some n → n ≤ 0 →
      (feed users ledger uid q).page = 1) ∧
    (jsParseInt (jsString q.limit) = none →
      (feed users ledger uid q).limit = 10) ∧
    (∀ n : Int, jsParseInt (jsString q.limit) = some n → n ≤ 0 →
      (feed users ledger uid q).limit = 10) ∧
    1 ≤ (feed users ledger uid q).page ∧
    1 ≤ (feed users ledger uid q).limit ∧
    (∀ (i : Nat) (u : User), (feed users ledger uid q).data[i]? = some u →
      (feedCandidates users ledger uid q)[((feed users ledger uid q).page - 1) *
        (feed users ledger uid q).limit + i]? = some u) := by
  refine ⟨?_, ?_, ?_, ?_, ?_, ?_, ?_⟩
  · intro h
    simp [feed, parsePositiveInt, h]
  · intro n h hn
    simp [feed, parsePositiveInt, h, hn]
  · intro h
    simp [feed, parsePositiveInt, h]
  · intro n h hn
    simp [feed, parsePositiveInt, h, hn]
  · exact one_le_parsePositiveInt q.page 1 (le_refl 1)
  · have h10 : 1 ≤ parsePositiveInt q.limit 10 :=
      one_le_parsePositiveInt q.limit 10 (by omega)
    simp only [feed]
    split
    · omega
    · exact h10
  · intro i u hi
    simp only [feed] at hi ⊢
    have h2 := getElem?_take_some (getElem?_ite_take_some _ _ _ _ _ hi)
    rw [List.getElem?_drop] at h2
    exact h2

/-- Witness for C10 at a concrete input: a non-numeric `page` and a
missing `limit` fall back to 1 and 10. -/
theorem C10_feed_param_parsing_witness :
    (feed [w1, w2] [] 3 { emptyQuery with page := QVal.str "abc" }).page = 1 ∧
    (feed [w1, w2] [] 3 { emptyQuery with page := QVal.str "abc" }).limit = 10 :=
  ⟨(C10_feed_param_parsing [w1, w2] [] 3
      { emptyQuery with page := QVal.str "abc" }).1 (by rfl),
   (C10_feed_param_parsing [w1, w2] [] 3
      { emptyQuery with page := QVal.str "abc" }).2.2.1 (by rfl)⟩

end DevLinker
